import Mathlib

/-
Verification of the working-clone lifecycle in `src/git/working.go`.

The file under verification composes calls to a low-level VCS operation
set (clone, fetch, push, commit, note read/write, ref resolution, ...)
that lives outside the reviewed sources; per the specification those
operations are external collaborators specified only by their contracts.
We embed `working.go` shallowly: each exported function becomes a Lean
function over

  * a `GitState` recording the local clone facts the contracts speak
    about (commits, notes, existing refs, HEAD), and
  * an oracle structure fixing the outcome of each external call
    (success, or an opaque error), so that every control-flow path of
    the Go code is reachable for some oracle, and

returning, besides its result, the list of external operations it
performed, in order (`List Event`).  Control flow, the arguments passed
to every external call, and every early `return` are translated
line-by-line from `working.go`.
-/

namespace Git

/-- Opaque error value produced by an external low-level VCS operation. -/
abbrev ExtErr := String

/-- Errors surfaced by the working-clone core.  `errReadOnly` mirrors the
declared `ErrReadOnly`, `errNoChanges` the `ErrNoChanges` sentinel,
`pushError url e` the `PushError(url, err)` wrapper, and `ext e` an error
propagated verbatim from an external operation. -/
inductive GitError where
  | errNoChanges
  | errReadOnly
  | pushError (url : String) (err : ExtErr)
  | ext (e : ExtErr)
  deriving DecidableEq, Repr

/-- Mirrors `var ErrReadOnly = errors.New(...)` in `working.go`. -/
def ErrReadOnly : GitError := .errReadOnly

/-- Mirrors the `ErrNoChanges` sentinel returned by `CommitAndPush`. -/
def ErrNoChanges : GitError := .errNoChanges

/-- Mirrors the `PushError(url, err)` constructor used on push failure. -/
def PushError (url : String) (err : ExtErr) : GitError := .pushError url err

/-- Mirrors `type Config struct` in `working.go`. -/
structure Config where
  Branch : String
  Paths : List String
  NotesRef : String
  UserName : String
  UserEmail : String
  SigningKey : String
  SetAuthor : Bool
  SkipMessage : String
  GitSecret : Bool
  deriving DecidableEq, Repr

/-- Mirrors the `Remote` descriptor ({URL}) supplied by the mirror. -/
structure Remote where
  URL : String
  deriving DecidableEq, Repr

/-- The mirror repository: its local storage directory and its origin. -/
structure Repo where
  dir : String
  origin : Remote
  deriving DecidableEq, Repr

/-- Mirrors `type Checkout struct` (the Working Clone): the embedded
`Export` directory, the `Config`, the upstream `Remote`, and the cached
resolved notes ref. -/
structure Checkout where
  dir : String
  config : Config
  upstream : Remote
  realNotesRef : String
  deriving DecidableEq, Repr

/-- Mirrors `type CommitAction struct`. -/
structure CommitAction where
  Author : String
  Message : String
  SigningKey : String
  deriving DecidableEq, Repr

/-- Mirrors `type TagAction struct`. -/
structure TagAction where
  Tag : String
  Revision : String
  Message : String
  SigningKey : String
  deriving DecidableEq, Repr

/-- Facts about the local clone that the external-operation contracts
mention: the revisions committed locally, the notes attached locally
(keyed by fully-qualified notes ref and revision), the refs that exist
locally, and the revision of HEAD. -/
structure GitState where
  commits : List String
  notes : List ((String × String) × String)
  refs : List String
  head : String
  deriving DecidableEq, Repr

/-- One external low-level VCS operation performed by the core, with the
arguments the core passed to it.  The embedding returns the list of
events in execution order. -/
inductive Event where
  | workingClone (branch : String)
  | configIdentity (userName userEmail : String)
  | getNotesRef (name : String)
  | rlock
  | runlock
  | fetch (refspec : String)
  | removeAll (dir : String)
  | secretUnseal
  | add (path : String)
  | check (paths : List String) (includeUntracked : Bool)
  | commit (action : CommitAction)
  | refRevision (ref : String)
  | addNote (rev : String) (notesRef : String) (payload : String)
  | refExists (ref : String)
  | push (url : String) (refs : List String)
  | moveTagAndPush (url : String) (action : TagAction)
  deriving DecidableEq, Repr

/-- Modelled from the spec: `resolveNotesRefName` (the external
`getNotesRef` operation, outside the reviewed sources) resolves the
configured notes-ref name into the fully-qualified ref in the dedicated
notes namespace. -/
def expandNotesRef (name : String) : String := "refs/notes/" ++ name

/-- The refspec of the tag force-fetch in `Clone`, verbatim from
`working.go` (the Go literal is quoted with single quotes). -/
def tagsRefSpec : String := "\x27+refs/tags/*:refs/tags/*\x27"

instance {ε α : Type} [DecidableEq ε] [DecidableEq α] : DecidableEq (Except ε α) :=
  fun x y =>
    match x, y with
    | .error a, .error b => decidable_of_iff (a = b) (by simp)
    | .error _, .ok _ => .isFalse (fun h => Except.noConfusion h)
    | .ok _, .error _ => .isFalse (fun h => Except.noConfusion h)
    | .ok a, .ok b => decidable_of_iff (a = b) (by simp)

/-- Outcomes of the external operations `Clone` calls, in call order.
Each `Option ExtErr` field is `none` when that call succeeds. -/
structure CloneOracle where
  workingCloneRes : Except ExtErr String
  configErr : Option ExtErr
  getNotesRefErr : Option ExtErr
  fetchTagsErr : Option ExtErr
  fetchNotesErr : Option ExtErr
  secretUnsealErr : Option ExtErr
  deriving DecidableEq, Repr

/-- Shallow embedding of `func (r *Repo) Clone(ctx, conf)`: returns the
result and the ordered list of external operations performed. -/
def clone (r : Repo) (o : CloneOracle) (conf : Config) :
    Except GitError Checkout × List Event :=
  let upstream := r.origin
  match o.workingCloneRes with
  | .error e => (.error (.ext e), [.workingClone conf.Branch])
  | .ok repoDir =>
    let t1 : List Event :=
      [.workingClone conf.Branch, .configIdentity conf.UserName conf.UserEmail]
    match o.configErr with
    | some e => (.error (.ext e), t1 ++ [.removeAll repoDir])
    | none =>
      let t2 := t1 ++ [.getNotesRef conf.NotesRef]
      match o.getNotesRefErr with
      | some e => (.error (.ext e), t2 ++ [.removeAll repoDir])
      | none =>
        let realNotesRef := expandNotesRef conf.NotesRef
        let t3 := t2 ++ [.rlock, .fetch tagsRefSpec]
        match o.fetchTagsErr with
        | some e => (.error (.ext e), t3 ++ [.removeAll repoDir, .runlock])
        | none =>
          let t4 := t3 ++ [.fetch (realNotesRef ++ ":" ++ realNotesRef)]
          match o.fetchNotesErr with
          | some e => (.error (.ext e), t4 ++ [.removeAll repoDir, .runlock])
          | none =>
            let t5 := t4 ++ [.runlock]
            if conf.GitSecret then
              let t6 := t5 ++ [.secretUnseal]
              match o.secretUnsealErr with
              | some e => (.error (.ext e), t6)
              | none =>
                (.ok { dir := repoDir, config := conf, upstream := upstream,
                       realNotesRef := realNotesRef }, t6)
            else
              (.ok { dir := repoDir, config := conf, upstream := upstream,
                     realNotesRef := realNotesRef }, t5)

/-- The refspecs of the fetches a trace contains, in order. -/
def fetchSpecs (t : List Event) : List String :=
  t.filterMap (fun e => match e with | .fetch spec => some spec | _ => none)

/-- Outcomes of the external operations `CommitAndPush` calls, in call
order.  `hasChanges` is the boolean result of the `check` call; `newRev`
is the revision identifier the new commit receives when `commit`
succeeds. -/
structure CAPOracle where
  addErr : Option ExtErr
  hasChanges : Bool
  commitErr : Option ExtErr
  newRev : String
  headErr : Option ExtErr
  addNoteErr : Option ExtErr
  refExistsErr : Option ExtErr
  pushErr : Option ExtErr
  deriving DecidableEq, Repr

/-- Result of the embedded `CommitAndPush`: the returned error (if any),
the local-clone state on return, and the external operations performed. -/
structure CAPResult where
  res : Option GitError
  state : GitState
  trace : List Event
  deriving DecidableEq, Repr

/-- The first component of a note entry key: the fully-qualified ref. -/
def noteLookup (s : GitState) (ref rev : String) : Option String :=
  s.notes.lookup (ref, rev)

/-- Modelled from the spec: the external `refExists` operation (outside
the reviewed sources) reports whether the given ref exists in the local
clone, as the Go `(bool, error)` pair; a failed check reports the ref as
absent together with the underlying error. -/
def refExistsPair (s : GitState) (o : CAPOracle) (ref : String) :
    Bool × Option ExtErr :=
  match o.refExistsErr with
  | some e => (false, some e)
  | none => (s.refs.contains ref, none)

/-- Final `push(ctx, c.Dir(), c.upstream.URL, refs)` call of
`CommitAndPush`, wrapping a failure in `PushError` with the remote URL. -/
def pushRefs (c : Checkout) (o : CAPOracle) (s : GitState) (t : List Event)
    (refs : List String) : CAPResult :=
  let t1 := t ++ [Event.push c.upstream.URL refs]
  match o.pushErr with
  | some e => ⟨some (PushError c.upstream.URL e), s, t1⟩
  | none => ⟨none, s, t1⟩

/-- Ref-selection step of `CommitAndPush`: `refs := {branch}`, then the
notes ref is appended only when `refExists` reports it present; an error
from a negative `refExists` is returned verbatim before any push. -/
def pushStep (c : Checkout) (o : CAPOracle) (s : GitState) (t : List Event) :
    CAPResult :=
  let pr := refExistsPair s o c.realNotesRef
  let t1 := t ++ [Event.refExists c.realNotesRef]
  if pr.1 then
    pushRefs c o s t1 [c.config.Branch, c.realNotesRef]
  else
    match pr.2 with
    | some e => ⟨some (.ext e), s, t1⟩
    | none => pushRefs c o s t1 [c.config.Branch]

/-- Note-attachment step of `CommitAndPush` (`if note != nil { ... }`):
resolve HEAD, then `addNote(ctx, c.Dir(), rev, c.config.NotesRef, note)`.
Per the spec the external `addNote` attaches the payload under the
resolved form of the notes-ref name it is given, which also makes that
notes ref exist locally. -/
def noteStep (c : Checkout) (o : CAPOracle) (s : GitState) (t : List Event)
    (note : Option String) : CAPResult :=
  match note with
  | none => pushStep c o s t
  | some payload =>
    let t1 := t ++ [Event.refRevision "HEAD"]
    match o.headErr with
    | some e => ⟨some (.ext e), s, t1⟩
    | none =>
      let rev := s.head
      let t2 := t1 ++ [Event.addNote rev c.config.NotesRef payload]
      match o.addNoteErr with
      | some e => ⟨some (.ext e), s, t2⟩
      | none =>
        let s1 : GitState :=
          { s with
            notes := ((expandNotesRef c.config.NotesRef, rev), payload) :: s.notes,
            refs := expandNotesRef c.config.NotesRef :: s.refs }
        pushStep c o s1 t2

/-- Continuation of `CommitAndPush` after the optional `add(ctx, dir, ".")`:
change check, message-suffix and signing-key resolution, commit, note,
push. -/
def commitAndPushChecked (c : Checkout) (o : CAPOracle) (s : GitState)
    (commitAction : CommitAction) (note : Option String) (addUntracked : Bool)
    (t : List Event) : CAPResult :=
  let t1 := t ++ [Event.check c.config.Paths addUntracked]
  if !o.hasChanges then ⟨some ErrNoChanges, s, t1⟩
  else
    let ca1 := { commitAction with Message := commitAction.Message ++ c.config.SkipMessage }
    let ca2 := if ca1.SigningKey = "" then
        { ca1 with SigningKey := c.config.SigningKey } else ca1
    let t2 := t1 ++ [Event.commit ca2]
    match o.commitErr with
    | some e => ⟨some (.ext e), s, t2⟩
    | none =>
      let s1 : GitState := { s with commits := o.newRev :: s.commits, head := o.newRev }
      noteStep c o s1 t2 note

/-- Shallow embedding of `func (c *Checkout) CommitAndPush(ctx,
commitAction, note, addUntracked)`. -/
def commitAndPush (c : Checkout) (o : CAPOracle) (s : GitState)
    (commitAction : CommitAction) (note : Option String) (addUntracked : Bool) :
    CAPResult :=
  if addUntracked then
    match o.addErr with
    | some e => ⟨some (.ext e), s, [Event.add "."]⟩
    | none => commitAndPushChecked c o s commitAction note addUntracked [Event.add "."]
  else
    commitAndPushChecked c o s commitAction note addUntracked []

/-- Outcome of the single external `moveTagAndPush` call. -/
structure TagOracle where
  moveTagErr : Option ExtErr
  deriving DecidableEq, Repr

/-- Shallow embedding of `func (c *Checkout) MoveTagAndPush(ctx,
tagAction)`: signing-key fallback, then one external call whose error is
propagated verbatim. -/
def MoveTagAndPush (c : Checkout) (g : TagOracle) (tagAction : TagAction) :
    Option GitError × List Event :=
  let ta := if tagAction.SigningKey = "" then
      { tagAction with SigningKey := c.config.SigningKey } else tagAction
  (g.moveTagErr.map GitError.ext, [Event.moveTagAndPush c.upstream.URL ta])

/-- Outcomes of the external operations behind the read-only queries. -/
structure QueryOracle where
  getNoteErr : Option ExtErr
  headErr : Option ExtErr
  noteRevListErr : Option ExtErr
  changedErr : Option ExtErr
  changedFiles : List String
  checkoutErr : Option ExtErr
  addErr : Option ExtErr
  deriving DecidableEq, Repr

/-- Modelled from the spec: the external `getNote` operation (outside the
reviewed sources) reports found-plus-payload for the given ref and
revision, with absence reported as not-found rather than an error. -/
def getNote (s : GitState) (ref rev : String) : Bool × Option String :=
  match noteLookup s ref rev with
  | some p => (true, some p)
  | none => (false, none)

/-- Shallow embedding of `func (c *Checkout) GetNote(ctx, rev, note)`:
looks up the note for `rev` under the cached `realNotesRef`. -/
def GetNote (c : Checkout) (qo : QueryOracle) (s : GitState) (rev : String) :
    Except GitError (Bool × Option String) :=
  match qo.getNoteErr with
  | some e => .error (.ext e)
  | none => .ok (getNote s c.realNotesRef rev)

/-- Shallow embedding of `func (c *Checkout) HeadRevision(ctx)`:
`refRevision(ctx, c.Dir(), "HEAD")`. -/
def HeadRevision (c : Checkout) (qo : QueryOracle) (s : GitState) :
    Except GitError String :=
  match qo.headErr with
  | some e => .error (.ext e)
  | none => .ok s.head

/-- Modelled from the spec: `listNotedRevisions(notesRef)` returns the
revisions that currently carry a note under the given ref. -/
def noteRevs (s : GitState) (ref : String) : List String :=
  s.notes.filterMap (fun kv => if kv.1.1 == ref then some kv.1.2 else none)

/-- Shallow embedding of `func (c *Checkout) NoteRevList(ctx)`. -/
def NoteRevList (c : Checkout) (qo : QueryOracle) (s : GitState) :
    Except GitError (List String) :=
  match qo.noteRevListErr with
  | some e => .error (.ext e)
  | none => .ok (noteRevs s c.realNotesRef)

/-- Modelled from the spec: Go `filepath.Join` of the clone root and a
relative path, simplified to inserting a single separator (the path
cleaning done by the Go standard library is out of scope). -/
def filepathJoin (dir p : String) : String := dir ++ "/" ++ p

/-- Shallow embedding of `func (c *Checkout) AbsolutePaths()`. -/
def AbsolutePaths (c : Checkout) : List String :=
  if c.config.Paths = [] then [c.dir]
  else c.config.Paths.map (fun p => filepathJoin c.dir p)

/-- Shallow embedding of `func (c *Checkout) ChangedFiles(ctx, ref)`:
the external diff result, each entry joined onto the clone root. -/
def ChangedFiles (c : Checkout) (qo : QueryOracle) (ref : String) :
    Except GitError (List String) :=
  match qo.changedErr with
  | some e => .error (.ext e)
  | none => .ok (qo.changedFiles.map (fun f => filepathJoin c.dir f))

/-- Shallow embedding of `func (c *Checkout) Checkout(ctx, rev)`: a
primitive pass-through whose error is propagated verbatim. -/
def CheckoutRev (c : Checkout) (qo : QueryOracle) (rev : String) :
    Option GitError :=
  qo.checkoutErr.map GitError.ext

/-- Shallow embedding of `func (c *Checkout) Add(ctx, path)`: a primitive
pass-through whose error is propagated verbatim. -/
def Add (c : Checkout) (qo : QueryOracle) (path : String) : Option GitError :=
  qo.addErr.map GitError.ext

/-- Mirror repository used by concrete instances below. -/
def sampleRepo : Repo :=
  { dir := "/data/mirror", origin := { URL := "https://example.com/repo.git" } }

/-- Configuration used by concrete instances below. -/
def sampleConfig : Config :=
  { Branch := "master", Paths := [], NotesRef := "flux", UserName := "Flux",
    UserEmail := "flux@example.com", SigningKey := "", SetAuthor := false,
    SkipMessage := "", GitSecret := false }

/-- Same configuration with secret unsealing requested. -/
def secretConfig : Config := { sampleConfig with GitSecret := true }

/-- All acquisition steps succeed except secret unsealing. -/
def unsealFailOracle : CloneOracle :=
  { workingCloneRes := .ok "/tmp/working-clone", configErr := none,
    getNotesRefErr := none, fetchTagsErr := none, fetchNotesErr := none,
    secretUnsealErr := some "unseal failed" }

/-- All acquisition steps succeed. -/
def cleanCloneOracle : CloneOracle :=
  { workingCloneRes := .ok "/tmp/working-clone", configErr := none,
    getNotesRefErr := none, fetchTagsErr := none, fetchNotesErr := none,
    secretUnsealErr := none }

/-- Resolution of the effective commit action performed by
`CommitAndPush`: message suffix appended, signing key falling back to the
configuration default. -/
def resolvedCommitAction (c : Checkout) (ca : CommitAction) : CommitAction :=
  if ca.SigningKey = "" then
    { ca with Message := ca.Message ++ c.config.SkipMessage,
              SigningKey := c.config.SigningKey }
  else
    { ca with Message := ca.Message ++ c.config.SkipMessage }

lemma pushStep_state (c : Checkout) (o : CAPOracle) (s : GitState)
    (t : List Event) : (pushStep c o s t).state = s := by
  cases hre : o.refExistsErr <;> by_cases hc : c.realNotesRef ∈ s.refs <;>
    cases hp : o.pushErr <;>
      simp [pushStep, pushRefs, refExistsPair, hre, hc, hp]

lemma pushStep_ok (c : Checkout) (o : CAPOracle) (s : GitState) (t : List Event)
    (href : o.refExistsErr = none) :
    pushStep c o s t =
      ⟨o.pushErr.map (fun e => PushError c.upstream.URL e), s,
        t ++ [Event.refExists c.realNotesRef,
              Event.push c.upstream.URL
                (if s.refs.contains c.realNotesRef then
                  [c.config.Branch, c.realNotesRef] else [c.config.Branch])]⟩ := by
  by_cases hc : c.realNotesRef ∈ s.refs <;> cases hp : o.pushErr <;>
    simp [pushStep, pushRefs, refExistsPair, href, hc, hp]

lemma pushStep_refErr (c : Checkout) (o : CAPOracle) (s : GitState)
    (t : List Event) (e : ExtErr) (href : o.refExistsErr = some e) :
    pushStep c o s t = ⟨some (.ext e), s, t ++ [Event.refExists c.realNotesRef]⟩ := by
  simp [pushStep, refExistsPair, href]

lemma noteStep_none (c : Checkout) (o : CAPOracle) (s : GitState)
    (t : List Event) : noteStep c o s t none = pushStep c o s t := rfl

lemma noteStep_some (c : Checkout) (o : CAPOracle) (s : GitState) (t : List Event)
    (p : String) (hh : o.headErr = none) (han : o.addNoteErr = none) :
    noteStep c o s t (some p) =
      pushStep c o
        { s with notes := ((expandNotesRef c.config.NotesRef, s.head), p) :: s.notes,
                 refs := expandNotesRef c.config.NotesRef :: s.refs }
        (t ++ [Event.refRevision "HEAD", Event.addNote s.head c.config.NotesRef p]) := by
  simp [noteStep, hh, han]

lemma commitAndPush_front (c : Checkout) (o : CAPOracle) (s : GitState)
    (ca : CommitAction) (note : Option String) (au : Bool)
    (hadd : au = true → o.addErr = none) (hchg : o.hasChanges = true)
    (hcommit : o.commitErr = none) :
    commitAndPush c o s ca note au =
      noteStep c o { s with commits := o.newRev :: s.commits, head := o.newRev }
        ((if au then [Event.add "."] else []) ++
          [Event.check c.config.Paths au, Event.commit (resolvedCommitAction c ca)])
        note := by
  cases au with
  | false =>
    by_cases hk : ca.SigningKey = "" <;>
      simp [commitAndPush, commitAndPushChecked, resolvedCommitAction, hchg, hcommit, hk]
  | true =>
    have ha := hadd rfl
    by_cases hk : ca.SigningKey = "" <;>
      simp [commitAndPush, commitAndPushChecked, resolvedCommitAction, ha, hchg,
        hcommit, hk]

/-- C6: Fetch ordering during acquisition.  In every execution of `Clone`
(successful or failed) the sequence of fetches performed is one of: no
fetch at all, the tag force-fetch alone, or the tag force-fetch followed
by the notes-ref fetch — and in the last case the tag fetch succeeded.
Hence the notes-ref fetch never precedes the tag fetch and is never
attempted unless the tag fetch succeeded. -/
theorem clone_fetch_ordering (r : Repo) (o : CloneOracle) (conf : Config) :
    fetchSpecs (clone r o conf).2 = [] ∨
    fetchSpecs (clone r o conf).2 = [tagsRefSpec] ∨
    (fetchSpecs (clone r o conf).2 =
        [tagsRefSpec,
         expandNotesRef conf.NotesRef ++ ":" ++ expandNotesRef conf.NotesRef] ∧
      o.fetchTagsErr = none) := by
  obtain ⟨wc, ce, ne, fe, fn, se⟩ := o
  cases wc <;> cases ce <;> cases ne <;> cases fe <;> cases fn <;> cases se <;>
    cases hG : conf.GitSecret <;>
      simp [clone, fetchSpecs, hG]

/-- C1 counterexample: when every acquisition step succeeds except secret
unsealing, `Clone` returns the unseal error but the partially-created
clone directory is never removed, refuting the all-or-nothing claim as
stated. -/
theorem clone_unseal_failure_keeps_directory :
    (clone sampleRepo unsealFailOracle secretConfig).1 = .error (.ext "unseal failed") ∧
    Event.removeAll "/tmp/working-clone" ∉
      (clone sampleRepo unsealFailOracle secretConfig).2 := by
  decide

/-- C1 amended: acquisition is all-or-nothing at every step except secret
unsealing.  Given that the initial clone created `repoDir`, either
`Clone` succeeds with a fully-initialized Working Clone, or it fails at
identity configuration, notes-ref resolution, tag fetch or notes fetch
having removed `repoDir`, or it fails at secret unsealing (GitSecret
set) and `repoDir` is left behind. -/
theorem clone_cleanup_amended (r : Repo) (o : CloneOracle) (conf : Config)
    (repoDir : String) (hwc : o.workingCloneRes = .ok repoDir) :
    (∃ c, (clone r o conf).1 = .ok c ∧ c.dir = repoDir ∧ c.config = conf ∧
        c.upstream = r.origin ∧ c.realNotesRef = expandNotesRef conf.NotesRef) ∨
    ((∃ e, (clone r o conf).1 = .error (.ext e)) ∧
        Event.removeAll repoDir ∈ (clone r o conf).2) ∨
    (conf.GitSecret = true ∧
        (∃ e, o.secretUnsealErr = some e ∧ (clone r o conf).1 = .error (.ext e)) ∧
        Event.removeAll repoDir ∉ (clone r o conf).2) := by
  obtain ⟨wc, ce, ne, fe, fn, se⟩ := o
  simp only at hwc
  subst hwc
  cases ce <;> cases ne <;> cases fe <;> cases fn <;> cases se <;>
    cases hG : conf.GitSecret <;>
      simp [clone, hG]

/-- Working Clone used by concrete instances below. -/
def sampleCheckout : Checkout :=
  { dir := "/tmp/working-clone", config := sampleConfig,
    upstream := sampleRepo.origin, realNotesRef := expandNotesRef "flux" }

/-- Local-clone state used by concrete instances below. -/
def sampleState : GitState :=
  { commits := ["rev0"], notes := [], refs := ["master"], head := "rev0" }

/-- Commit action used by concrete instances below. -/
def sampleAction : CommitAction :=
  { Author := "", Message := "Sync", SigningKey := "" }

/-- Oracle on which the change check reports nothing to commit. -/
def noChangesOracle : CAPOracle :=
  { addErr := none, hasChanges := false, commitErr := none, newRev := "rev1",
    headErr := none, addNoteErr := none, refExistsErr := none, pushErr := none }

/-- Oracle on which every external operation of `CommitAndPush` succeeds. -/
def allOkOracle : CAPOracle :=
  { addErr := none, hasChanges := true, commitErr := none, newRev := "rev1",
    headErr := none, addNoteErr := none, refExistsErr := none, pushErr := none }

/-- C3: No-changes condition.  Whenever the change check (reached after
any requested auto-staging succeeded) reports no changes, `CommitAndPush`
returns the distinguished `ErrNoChanges`, performs no commit, no note
write and no push, and returns with the local clone state unchanged. -/
theorem commitAndPush_no_changes (c : Checkout) (o : CAPOracle) (s : GitState)
    (ca : CommitAction) (note : Option String) (au : Bool)
    (hadd : au = true → o.addErr = none) (hchg : o.hasChanges = false) :
    (commitAndPush c o s ca note au).res = some ErrNoChanges ∧
    (commitAndPush c o s ca note au).state = s ∧
    (∀ a, Event.commit a ∉ (commitAndPush c o s ca note au).trace) ∧
    (∀ rev nref p, Event.addNote rev nref p ∉ (commitAndPush c o s ca note au).trace) ∧
    (∀ u refs, Event.push u refs ∉ (commitAndPush c o s ca note au).trace) := by
  cases au with
  | false => simp [commitAndPush, commitAndPushChecked, hchg]
  | true =>
    have ha := hadd rfl
    simp [commitAndPush, ha, commitAndPushChecked, hchg]

/-- C3 witness: a concrete no-changes run returns `ErrNoChanges` with the
state unchanged. -/
theorem commitAndPush_no_changes_witness :
    (commitAndPush sampleCheckout noChangesOracle sampleState sampleAction
        none false).res = some ErrNoChanges ∧
    (commitAndPush sampleCheckout noChangesOracle sampleState sampleAction
        none false).state = sampleState :=
  ⟨(commitAndPush_no_changes sampleCheckout noChangesOracle sampleState
      sampleAction none false (fun h => nomatch h) rfl).1,
   (commitAndPush_no_changes sampleCheckout noChangesOracle sampleState
      sampleAction none false (fun h => nomatch h) rfl).2.1⟩

/-- Oracle on which everything succeeds except the final push. -/
def pushFailOracle : CAPOracle :=
  { allOkOracle with pushErr := some "push failed" }

/-- Oracle on which everything succeeds except the notes-ref existence
check, which fails with an error while reporting the ref absent. -/
def refErrOracle : CAPOracle :=
  { allOkOracle with refExistsErr := some "rev-parse failed" }

/-- Query oracle on which every read-only query succeeds. -/
def sampleQueryOracle : QueryOracle :=
  { getNoteErr := none, headErr := none, noteRevListErr := none,
    changedErr := none, changedFiles := [], checkoutErr := none, addErr := none }

/-- C4: Push failure semantics.  When the local commit (and any requested
note write) succeeds but the push fails, `CommitAndPush` returns the
distinguished push error wrapping the underlying error together with the
remote URL, and the new commit and the attached note are still present in
the returned local state. -/
theorem commitAndPush_push_failure (c : Checkout) (o : CAPOracle) (s : GitState)
    (ca : CommitAction) (note : Option String) (au : Bool) (e : ExtErr)
    (hadd : au = true → o.addErr = none) (hchg : o.hasChanges = true)
    (hcommit : o.commitErr = none)
    (hnote : ∀ p, note = some p → o.headErr = none ∧ o.addNoteErr = none)
    (href : o.refExistsErr = none) (hpush : o.pushErr = some e) :
    (commitAndPush c o s ca note au).res = some (PushError c.upstream.URL e) ∧
    o.newRev ∈ (commitAndPush c o s ca note au).state.commits ∧
    (∀ p, note = some p →
      noteLookup (commitAndPush c o s ca note au).state
        (expandNotesRef c.config.NotesRef) o.newRev = some p) := by
  rw [commitAndPush_front c o s ca note au hadd hchg hcommit]
  cases note with
  | none =>
    rw [noteStep_none, pushStep_ok c o _ _ href, hpush]
    exact ⟨rfl, by simp, fun p hp => nomatch hp⟩
  | some p =>
    obtain ⟨hh, han⟩ := hnote p rfl
    rw [noteStep_some c o _ _ p hh han, pushStep_ok c o _ _ href, hpush]
    refine ⟨rfl, by simp, ?_⟩
    intro q hq
    injection hq with hq
    subst hq
    simp [noteLookup, List.lookup]

/-- C4 witness: a concrete run with a note whose push fails returns the
push error with the remote URL, keeping commit and note locally. -/
theorem commitAndPush_push_failure_witness :
    (commitAndPush sampleCheckout pushFailOracle sampleState sampleAction
        (some "note-payload") false).res =
      some (PushError sampleCheckout.upstream.URL "push failed") ∧
    pushFailOracle.newRev ∈ (commitAndPush sampleCheckout pushFailOracle sampleState
        sampleAction (some "note-payload") false).state.commits ∧
    noteLookup (commitAndPush sampleCheckout pushFailOracle sampleState sampleAction
        (some "note-payload") false).state
      (expandNotesRef sampleCheckout.config.NotesRef) pushFailOracle.newRev =
      some "note-payload" :=
  ⟨(commitAndPush_push_failure sampleCheckout pushFailOracle sampleState sampleAction
      (some "note-payload") false "push failed" (fun h => nomatch h) rfl rfl
      (fun _ _ => ⟨rfl, rfl⟩) rfl rfl).1,
   (commitAndPush_push_failure sampleCheckout pushFailOracle sampleState sampleAction
      (some "note-payload") false "push failed" (fun h => nomatch h) rfl rfl
      (fun _ _ => ⟨rfl, rfl⟩) rfl rfl).2.1,
   (commitAndPush_push_failure sampleCheckout pushFailOracle sampleState sampleAction
      (some "note-payload") false "push failed" (fun h => nomatch h) rfl rfl
      (fun _ _ => ⟨rfl, rfl⟩) rfl rfl).2.2 "note-payload" rfl⟩

/-- C10: A failing notes-ref existence check that reports the ref absent
makes `CommitAndPush` return that error verbatim (not wrapped as a push
error), with no push of any ref attempted, although the local commit and
any note write have already completed. -/
theorem refExists_error_aborts_push (c : Checkout) (o : CAPOracle) (s : GitState)
    (ca : CommitAction) (note : Option String) (au : Bool) (e : ExtErr)
    (hadd : au = true → o.addErr = none) (hchg : o.hasChanges = true)
    (hcommit : o.commitErr = none)
    (hnote : ∀ p, note = some p → o.headErr = none ∧ o.addNoteErr = none)
    (href : o.refExistsErr = some e) :
    (commitAndPush c o s ca note au).res = some (GitError.ext e) ∧
    (∀ u refs, Event.push u refs ∉ (commitAndPush c o s ca note au).trace) ∧
    o.newRev ∈ (commitAndPush c o s ca note au).state.commits ∧
    (∀ p, note = some p →
      noteLookup (commitAndPush c o s ca note au).state
        (expandNotesRef c.config.NotesRef) o.newRev = some p) := by
  rw [commitAndPush_front c o s ca note au hadd hchg hcommit]
  cases note with
  | none =>
    rw [noteStep_none, pushStep_refErr c o _ _ e href]
    refine ⟨rfl, ?_, by simp, fun p hp => nomatch hp⟩
    intro u refs
    cases au <;> simp
  | some p =>
    obtain ⟨hh, han⟩ := hnote p rfl
    rw [noteStep_some c o _ _ p hh han, pushStep_refErr c o _ _ e href]
    refine ⟨rfl, ?_, by simp, ?_⟩
    · intro u refs
      cases au <;> simp
    · intro q hq
      injection hq with hq
      subst hq
      simp [noteLookup, List.lookup]

/-- C10 witness: a concrete run on which the existence check errs returns
that error verbatim, pushes nothing, and keeps the commit and note. -/
theorem refExists_error_aborts_push_witness :
    (commitAndPush sampleCheckout refErrOracle sampleState sampleAction
        (some "note-payload") false).res = some (GitError.ext "rev-parse failed") ∧
    refErrOracle.newRev ∈ (commitAndPush sampleCheckout refErrOracle sampleState
        sampleAction (some "note-payload") false).state.commits :=
  ⟨(refExists_error_aborts_push sampleCheckout refErrOracle sampleState sampleAction
      (some "note-payload") false "rev-parse failed" (fun h => nomatch h) rfl rfl
      (fun _ _ => ⟨rfl, rfl⟩) rfl).1,
   (refExists_error_aborts_push sampleCheckout refErrOracle sampleState sampleAction
      (some "note-payload") false "rev-parse failed" (fun h => nomatch h) rfl rfl
      (fun _ _ => ⟨rfl, rfl⟩) rfl).2.2.1⟩

/-- C2: Note round trip.  On a successful `CommitAndPush` carrying a note
payload, and with the cached notes ref equal to the resolution of the
configured notes-ref name (as `Clone` establishes), the note ends up
attached under that resolved ref to exactly the new commit's revision,
and `GetNote` on that revision afterwards reports found with the same
payload. -/
theorem commitAndPush_note_roundtrip (c : Checkout) (o : CAPOracle)
    (qo : QueryOracle) (s : GitState) (ca : CommitAction) (p : String) (au : Bool)
    (hrn : c.realNotesRef = expandNotesRef c.config.NotesRef)
    (hadd : au = true → o.addErr = none) (hchg : o.hasChanges = true)
    (hcommit : o.commitErr = none) (hh : o.headErr = none) (han : o.addNoteErr = none)
    (href : o.refExistsErr = none) (hpush : o.pushErr = none)
    (hq : qo.getNoteErr = none) :
    (commitAndPush c o s ca (some p) au).res = none ∧
    (commitAndPush c o s ca (some p) au).state.head = o.newRev ∧
    o.newRev ∈ (commitAndPush c o s ca (some p) au).state.commits ∧
    GetNote c qo (commitAndPush c o s ca (some p) au).state o.newRev =
      .ok (true, some p) := by
  rw [commitAndPush_front c o s ca (some p) au hadd hchg hcommit,
    noteStep_some c o _ _ p hh han, pushStep_ok c o _ _ href, hpush]
  refine ⟨rfl, rfl, by simp, ?_⟩
  simp [GetNote, hq, getNote, noteLookup, List.lookup, hrn]

/-- C2 witness: a concrete successful run with a note payload, after
which `GetNote` at the new revision reports found with the payload. -/
theorem commitAndPush_note_roundtrip_witness :
    (commitAndPush sampleCheckout allOkOracle sampleState sampleAction
        (some "note-payload") false).res = none ∧
    (commitAndPush sampleCheckout allOkOracle sampleState sampleAction
        (some "note-payload") false).state.head = allOkOracle.newRev ∧
    allOkOracle.newRev ∈ (commitAndPush sampleCheckout allOkOracle sampleState
        sampleAction (some "note-payload") false).state.commits ∧
    GetNote sampleCheckout sampleQueryOracle
        (commitAndPush sampleCheckout allOkOracle sampleState sampleAction
          (some "note-payload") false).state allOkOracle.newRev =
      .ok (true, some "note-payload") :=
  commitAndPush_note_roundtrip sampleCheckout allOkOracle sampleQueryOracle
    sampleState sampleAction "note-payload" false rfl (fun h => nomatch h)
    rfl rfl rfl rfl rfl rfl rfl

lemma pushStep_push_mem (c : Checkout) (o : CAPOracle) (s : GitState)
    (t : List Event) (u : String) (refs : List String)
    (h : Event.push u refs ∈ (pushStep c o s t).trace) :
    Event.push u refs ∈ t ∨
      (u = c.upstream.URL ∧
        refs = (if s.refs.contains c.realNotesRef then
            [c.config.Branch, c.realNotesRef] else [c.config.Branch])) := by
  cases hre : o.refExistsErr <;> by_cases hc : c.realNotesRef ∈ s.refs <;>
    cases hp : o.pushErr <;>
      simp [pushStep, pushRefs, refExistsPair, hre, hc, hp] at h ⊢ <;> tauto

lemma pushStep_commit_mem (c : Checkout) (o : CAPOracle) (s : GitState)
    (t : List Event) (a : CommitAction)
    (h : Event.commit a ∈ (pushStep c o s t).trace) : Event.commit a ∈ t := by
  cases hre : o.refExistsErr <;> by_cases hc : c.realNotesRef ∈ s.refs <;>
    cases hp : o.pushErr <;>
      simp [pushStep, pushRefs, refExistsPair, hre, hc, hp] at h <;> tauto

lemma noteStep_push_mem (c : Checkout) (o : CAPOracle) (s : GitState)
    (t : List Event) (note : Option String) (u : String) (refs : List String)
    (h : Event.push u refs ∈ (noteStep c o s t note).trace) :
    Event.push u refs ∈ t ∨
      (u = c.upstream.URL ∧
        refs = (if (noteStep c o s t note).state.refs.contains c.realNotesRef then
            [c.config.Branch, c.realNotesRef] else [c.config.Branch])) := by
  cases note with
  | none =>
    have h2 := pushStep_push_mem c o s t u refs h
    simpa [noteStep_none, pushStep_state] using h2
  | some p =>
    cases hh : o.headErr with
    | some e =>
      simp [noteStep, hh] at h
      exact Or.inl h
    | none =>
      cases han : o.addNoteErr with
      | some e =>
        simp [noteStep, hh, han] at h
        exact Or.inl h
      | none =>
        rw [noteStep_some c o s t p hh han] at h ⊢
        have h2 := pushStep_push_mem _ _ _ _ _ _ h
        rcases h2 with h2 | h2
        · left; simpa using h2
        · right; simpa [pushStep_state] using h2

lemma noteStep_commit_mem (c : Checkout) (o : CAPOracle) (s : GitState)
    (t : List Event) (note : Option String) (a : CommitAction)
    (h : Event.commit a ∈ (noteStep c o s t note).trace) : Event.commit a ∈ t := by
  cases note with
  | none => exact pushStep_commit_mem c o s t a h
  | some p =>
    cases hh : o.headErr with
    | some e => simpa [noteStep, hh] using h
    | none =>
      cases han : o.addNoteErr with
      | some e => simpa [noteStep, hh, han] using h
      | none =>
        rw [noteStep_some c o s t p hh han] at h
        have h2 := pushStep_commit_mem _ _ _ _ _ h
        simpa using h2

lemma commitAndPushChecked_push_gating (c : Checkout) (o : CAPOracle)
    (s : GitState) (ca : CommitAction) (note : Option String) (au : Bool)
    (t : List Event) (hno : ∀ u2 refs2, Event.push u2 refs2 ∉ t)
    (u : String) (refs : List String)
    (h : Event.push u refs ∈ (commitAndPushChecked c o s ca note au t).trace) :
    u = c.upstream.URL ∧
    refs = (if (commitAndPushChecked c o s ca note au t).state.refs.contains
          c.realNotesRef
        then [c.config.Branch, c.realNotesRef] else [c.config.Branch]) := by
  cases hch : o.hasChanges with
  | false =>
    simp [commitAndPushChecked, hch] at h
    exact absurd h (hno u refs)
  | true =>
    cases hce : o.commitErr with
    | some e =>
      simp [commitAndPushChecked, hch, hce] at h
      exact absurd h (hno u refs)
    | none =>
      simp only [commitAndPushChecked, hch, hce] at h ⊢
      simp only [Bool.not_true, Bool.false_eq_true, if_false] at h ⊢
      have h2 := noteStep_push_mem _ _ _ _ _ _ _ h
      rcases h2 with h2 | h2
      · simp at h2
        exact absurd h2 (hno u refs)
      · exact h2

/-- C5: Notes-ref push gating.  In every execution of `CommitAndPush`
that performs a push, the pushed refs are exactly the configured branch
plus the resolved notes ref when that ref exists locally at push time,
and the branch alone when it does not. -/
theorem commitAndPush_push_refs_gating (c : Checkout) (o : CAPOracle)
    (s : GitState) (ca : CommitAction) (note : Option String) (au : Bool)
    (u : String) (refs : List String)
    (h : Event.push u refs ∈ (commitAndPush c o s ca note au).trace) :
    u = c.upstream.URL ∧
    refs = (if (commitAndPush c o s ca note au).state.refs.contains c.realNotesRef
            then [c.config.Branch, c.realNotesRef] else [c.config.Branch]) := by
  cases au with
  | false =>
    simp only [commitAndPush, Bool.false_eq_true, if_false] at h ⊢
    exact commitAndPushChecked_push_gating c o s ca note false [] (by simp) u refs h
  | true =>
    cases ha : o.addErr with
    | some e => simp [commitAndPush, ha] at h
    | none =>
      simp only [commitAndPush, ha, if_true] at h ⊢
      exact commitAndPushChecked_push_gating c o s ca note true [Event.add "."]
        (by simp) u refs h

/-- C5 witness: on a fresh clone whose state has no local notes ref and a
run without a note payload, the single push pushes only the branch, and
the run succeeds. -/
theorem commitAndPush_push_refs_gating_witness :
    ("https://example.com/repo.git" = sampleCheckout.upstream.URL ∧
      ["master"] = (if (commitAndPush sampleCheckout allOkOracle sampleState
            sampleAction none false).state.refs.contains sampleCheckout.realNotesRef
          then [sampleCheckout.config.Branch, sampleCheckout.realNotesRef]
          else [sampleCheckout.config.Branch])) ∧
    (commitAndPush sampleCheckout allOkOracle sampleState sampleAction
        none false).res = none :=
  ⟨commitAndPush_push_refs_gating sampleCheckout allOkOracle sampleState
      sampleAction none false "https://example.com/repo.git" ["master"] (by decide),
   by decide⟩

lemma commitAndPushChecked_commit_key (c : Checkout) (o : CAPOracle)
    (s : GitState) (ca : CommitAction) (note : Option String) (au : Bool)
    (t : List Event) (hno : ∀ a2 : CommitAction, Event.commit a2 ∉ t)
    (a : CommitAction)
    (ha : Event.commit a ∈ (commitAndPushChecked c o s ca note au t).trace) :
    a.SigningKey = (if ca.SigningKey = "" then c.config.SigningKey
                    else ca.SigningKey) := by
  cases hch : o.hasChanges with
  | false =>
    simp [commitAndPushChecked, hch] at ha
    exact absurd ha (hno a)
  | true =>
    cases hce : o.commitErr with
    | some e =>
      simp only [commitAndPushChecked, hch, hce] at ha
      simp only [Bool.not_true, Bool.false_eq_true, if_false] at ha
      simp at ha
      rcases ha with ha | ha
      · exact absurd ha (hno a)
      · subst ha
        by_cases hk : ca.SigningKey = "" <;> simp [hk]
    | none =>
      simp only [commitAndPushChecked, hch, hce] at ha
      simp only [Bool.not_true, Bool.false_eq_true, if_false] at ha
      have h2 := noteStep_commit_mem _ _ _ _ _ _ ha
      simp at h2
      rcases h2 with h2 | h2
      · exact absurd h2 (hno a)
      · subst h2
        by_cases hk : ca.SigningKey = "" <;> simp [hk]

/-- C7: Signing-key precedence.  Every commit performed by
`CommitAndPush` and every tag move performed by `MoveTagAndPush` carries
the caller-supplied signing key when it is non-empty, and the
configuration's signing key otherwise. -/
theorem signingKey_precedence (c : Checkout) (o : CAPOracle) (s : GitState)
    (ca : CommitAction) (note : Option String) (au : Bool)
    (g : TagOracle) (ta : TagAction) :
    (∀ a, Event.commit a ∈ (commitAndPush c o s ca note au).trace →
      a.SigningKey = (if ca.SigningKey = "" then c.config.SigningKey
                      else ca.SigningKey)) ∧
    (∀ u a, Event.moveTagAndPush u a ∈ (MoveTagAndPush c g ta).2 →
      a.SigningKey = (if ta.SigningKey = "" then c.config.SigningKey
                      else ta.SigningKey)) := by
  constructor
  · intro a ha
    cases au with
    | false =>
      simp only [commitAndPush, Bool.false_eq_true, if_false] at ha
      exact commitAndPushChecked_commit_key c o s ca note false [] (by simp) a ha
    | true =>
      cases hae : o.addErr with
      | some e => simp [commitAndPush, hae] at ha
      | none =>
        simp only [commitAndPush, hae, if_true] at ha
        exact commitAndPushChecked_commit_key c o s ca note true [Event.add "."]
          (by simp) a ha
  · intro u a ha
    by_cases hk : ta.SigningKey = "" <;> simp [MoveTagAndPush, hk] at ha <;>
      rcases ha with ⟨h1, h2⟩ <;> subst h2 <;> simp [hk]

/-- Configuration and clone with a non-empty configured signing key, for
the signing-key witness. -/
def signingCheckout : Checkout :=
  { sampleCheckout with config := { sampleConfig with SigningKey := "cfg-key" } }

/-- Tag action without a signing-key override. -/
def sampleTagAction : TagAction :=
  { Tag := "v1", Revision := "rev1", Message := "retag", SigningKey := "" }

/-- Tag oracle on which the tag move succeeds. -/
def sampleTagOracle : TagOracle := { moveTagErr := none }

/-- C7 witness: in a concrete run with empty overrides, the performed
commit and tag move both carry the configuration's signing key. -/
theorem signingKey_precedence_witness :
    ({ Author := "", Message := "Sync", SigningKey := "cfg-key" } :
        CommitAction).SigningKey =
      (if sampleAction.SigningKey = "" then signingCheckout.config.SigningKey
       else sampleAction.SigningKey) ∧
    ({ Tag := "v1", Revision := "rev1", Message := "retag",
       SigningKey := "cfg-key" } : TagAction).SigningKey =
      (if sampleTagAction.SigningKey = "" then signingCheckout.config.SigningKey
       else sampleTagAction.SigningKey) :=
  ⟨(signingKey_precedence signingCheckout allOkOracle sampleState sampleAction
      none false sampleTagOracle sampleTagAction).1
      { Author := "", Message := "Sync", SigningKey := "cfg-key" } (by decide),
   (signingKey_precedence signingCheckout allOkOracle sampleState sampleAction
      none false sampleTagOracle sampleTagAction).2
      signingCheckout.upstream.URL
      { Tag := "v1", Revision := "rev1", Message := "retag",
        SigningKey := "cfg-key" } (by decide)⟩

lemma pushStep_res_ne_readOnly (c : Checkout) (o : CAPOracle) (s : GitState)
    (t : List Event) : (pushStep c o s t).res ≠ some ErrReadOnly := by
  cases hre : o.refExistsErr <;> by_cases hc : c.realNotesRef ∈ s.refs <;>
    cases hp : o.pushErr <;>
      simp [pushStep, pushRefs, refExistsPair, PushError, ErrReadOnly, hre, hc, hp]

lemma noteStep_res_ne_readOnly (c : Checkout) (o : CAPOracle) (s : GitState)
    (t : List Event) (note : Option String) :
    (noteStep c o s t note).res ≠ some ErrReadOnly := by
  cases note with
  | none => exact pushStep_res_ne_readOnly c o s t
  | some p =>
    cases hh : o.headErr with
    | some e => simp [noteStep, hh, ErrReadOnly]
    | none =>
      cases han : o.addNoteErr with
      | some e => simp [noteStep, hh, han, ErrReadOnly]
      | none =>
        rw [noteStep_some c o s t p hh han]
        exact pushStep_res_ne_readOnly c o _ _

lemma commitAndPushChecked_res_ne_readOnly (c : Checkout) (o : CAPOracle)
    (s : GitState) (ca : CommitAction) (note : Option String) (au : Bool)
    (t : List Event) :
    (commitAndPushChecked c o s ca note au t).res ≠ some ErrReadOnly := by
  cases hch : o.hasChanges with
  | false => simp [commitAndPushChecked, hch, ErrNoChanges, ErrReadOnly]
  | true =>
    cases hce : o.commitErr with
    | some e => simp [commitAndPushChecked, hch, hce, ErrReadOnly]
    | none =>
      simp only [commitAndPushChecked, hch, hce, Bool.not_true,
        Bool.false_eq_true, if_false]
      exact noteStep_res_ne_readOnly c o _ _ note

lemma commitAndPush_res_ne_readOnly (c : Checkout) (o : CAPOracle) (s : GitState)
    (ca : CommitAction) (note : Option String) (au : Bool) :
    (commitAndPush c o s ca note au).res ≠ some ErrReadOnly := by
  cases au with
  | false =>
    simp only [commitAndPush, Bool.false_eq_true, if_false]
    exact commitAndPushChecked_res_ne_readOnly c o s ca note false []
  | true =>
    cases hae : o.addErr with
    | some e => simp [commitAndPush, hae, ErrReadOnly]
    | none =>
      simp only [commitAndPush, hae, if_true]
      exact commitAndPushChecked_res_ne_readOnly c o s ca note true [Event.add "."]

lemma clone_res_ne_readOnly (r : Repo) (o : CloneOracle) (conf : Config) :
    (clone r o conf).1 ≠ .error ErrReadOnly := by
  obtain ⟨wc, ce, ne, fe, fn, se⟩ := o
  cases wc <;> cases ce <;> cases ne <;> cases fe <;> cases fn <;> cases se <;>
    cases hG : conf.GitSecret <;> simp [clone, hG, ErrReadOnly]

/-- C9: The declared read-only-repository error is dead code.  No
operation exposed by this core — `Clone`, `CommitAndPush`,
`MoveTagAndPush`, or any read-only query — ever returns `ErrReadOnly`,
for any inputs and any outcomes of the external operations. -/
theorem errReadOnly_dead_code (r : Repo) (co : CloneOracle) (conf : Config)
    (c : Checkout) (o : CAPOracle) (s : GitState) (ca : CommitAction)
    (note : Option String) (au : Bool) (g : TagOracle) (ta : TagAction)
    (qo : QueryOracle) (rev ref path : String) :
    (clone r co conf).1 ≠ .error ErrReadOnly ∧
    (commitAndPush c o s ca note au).res ≠ some ErrReadOnly ∧
    (MoveTagAndPush c g ta).1 ≠ some ErrReadOnly ∧
    GetNote c qo s rev ≠ .error ErrReadOnly ∧
    HeadRevision c qo s ≠ .error ErrReadOnly ∧
    NoteRevList c qo s ≠ .error ErrReadOnly ∧
    ChangedFiles c qo ref ≠ .error ErrReadOnly ∧
    CheckoutRev c qo rev ≠ some ErrReadOnly ∧
    Add c qo path ≠ some ErrReadOnly := by
  refine ⟨clone_res_ne_readOnly r co conf,
    commitAndPush_res_ne_readOnly c o s ca note au, ?_, ?_, ?_, ?_, ?_, ?_, ?_⟩
  · cases hg : g.moveTagErr <;> simp [MoveTagAndPush, hg, ErrReadOnly]
  · cases hq : qo.getNoteErr <;> simp [GetNote, hq, ErrReadOnly]
  · cases hq : qo.headErr <;> simp [HeadRevision, hq, ErrReadOnly]
  · cases hq : qo.noteRevListErr <;> simp [NoteRevList, hq, ErrReadOnly]
  · cases hq : qo.changedErr <;> simp [ChangedFiles, hq, ErrReadOnly]
  · cases hq : qo.checkoutErr <;> simp [CheckoutRev, hq, ErrReadOnly]
  · cases hq : qo.addErr <;> simp [Add, hq, ErrReadOnly]

/-- C8: `AbsolutePaths` always returns a non-empty list: the clone root
alone when no path filters are configured, and otherwise exactly the
configured filters joined onto the clone root, in order. -/
theorem absolutePaths_shape (c : Checkout) :
    AbsolutePaths c ≠ [] ∧
    (c.config.Paths = [] → AbsolutePaths c = [c.dir]) ∧
    (c.config.Paths ≠ [] →
      AbsolutePaths c = c.config.Paths.map (fun p => filepathJoin c.dir p) ∧
      (AbsolutePaths c).length = c.config.Paths.length) := by
  by_cases hp : c.config.Paths = [] <;> simp [AbsolutePaths, hp]

/-- Working Clone with two configured path filters, for the
`AbsolutePaths` witness. -/
def pathsCheckout : Checkout :=
  { sampleCheckout with config := { sampleConfig with Paths := ["manifests", "docs"] } }

/-- C8 witness: with two configured filters, `AbsolutePaths` returns
exactly the two joined paths, in order. -/
theorem absolutePaths_shape_witness :
    AbsolutePaths pathsCheckout =
      pathsCheckout.config.Paths.map (fun p => filepathJoin pathsCheckout.dir p) ∧
    (AbsolutePaths pathsCheckout).length = pathsCheckout.config.Paths.length :=
  (absolutePaths_shape pathsCheckout).2.2 (by decide)

/-- C1 witness for the amended theorem: on a configuration where every
step succeeds, the amended trichotomy holds via its first branch. -/
theorem clone_cleanup_amended_witness :
    (∃ c, (clone sampleRepo cleanCloneOracle sampleConfig).1 = .ok c ∧
        c.dir = "/tmp/working-clone" ∧ c.config = sampleConfig ∧
        c.upstream = sampleRepo.origin ∧
        c.realNotesRef = expandNotesRef sampleConfig.NotesRef) ∨
    ((∃ e, (clone sampleRepo cleanCloneOracle sampleConfig).1 = .error (.ext e)) ∧
        Event.removeAll "/tmp/working-clone" ∈
          (clone sampleRepo cleanCloneOracle sampleConfig).2) ∨
    (sampleConfig.GitSecret = true ∧
        (∃ e, cleanCloneOracle.secretUnsealErr = some e ∧
          (clone sampleRepo cleanCloneOracle sampleConfig).1 = .error (.ext e)) ∧
        Event.removeAll "/tmp/working-clone" ∉
          (clone sampleRepo cleanCloneOracle sampleConfig).2) :=
  clone_cleanup_amended sampleRepo cleanCloneOracle sampleConfig
    "/tmp/working-clone" rfl

end Git
